import Mathlib

/-!
Verification of the STM32MP1 clock-tree / operating-point driver
(`drivers/clk` platform code): gate controller with secure refcounting,
PLL VCO computation, PLL1 operating-point divider search, operating-point
switching, round-down of requested frequencies, timer-rate rule and the
suspend/resume gate resynchronisation.

Machine integers are modelled as `Nat`/`Int` with explicit `% 2^w`
truncation where the C code can wrap.  Panics (`panic()` and failed
`assert()`) are modelled by `Option`-valued operations returning `none`.
-/

/-! ## Clock identifier constants

Modelled from the spec: the numeric clock identifiers come from the
device-tree binding header (dt-bindings/clock/stm32mp1-clks.h), which is
not part of the provided sources; the driver's compile-time assertions fix
the orderings that matter (`CK_HSE = 0 .. CK_HSE_DIV2 = CK_HSE + 5`,
`PLL1_P .. PLL3_R` contiguous, all ids below 255).  The concrete values
below respect every ordering and distinctness constraint the driver
relies on; no claim depends on the exact numbers. -/

def CK_HSE : Nat := 0
def CK_CSI : Nat := 1
def CK_LSI : Nat := 2
def CK_LSE : Nat := 3
def CK_HSI : Nat := 4
def CK_HSE_DIV2 : Nat := 5

def RTCAPB : Nat := 65
def TZC1 : Nat := 66
def TZPC : Nat := 67
def IWDG1 : Nat := 68
def BSEC : Nat := 69
def TZC2 : Nat := 89
def GPIOZ : Nat := 101
def BKPSRAM : Nat := 102
def CRYP1 : Nat := 103
def HASH1 : Nat := 104
def MDMA : Nat := 105

def PLL1_P : Nat := 106
def PLL1_Q : Nat := 107
def PLL1_R : Nat := 108
def PLL2_P : Nat := 109
def PLL2_Q : Nat := 110
def PLL2_R : Nat := 111
def PLL3_P : Nat := 112
def PLL3_Q : Nat := 113
def PLL3_R : Nat := 114
def PLL4_P : Nat := 115
def PLL4_Q : Nat := 116
def PLL4_R : Nat := 117

def RNG1_K : Nat := 124
def STGEN_K : Nat := 128
def SPI6_K : Nat := 135
def I2C4_K : Nat := 140
def I2C6_K : Nat := 142
def USART1_K : Nat := 148

def TIM2_K : Nat := 171
def TIM12_K : Nat := 177
def TIM14_K : Nat := 179
def TIM1_K : Nat := 180
def TIM15_K : Nat := 182
def TIM17_K : Nat := 184

def DDRC1 : Nat := 198
def DDRC1LP : Nat := 199
def DDRC2 : Nat := 200
def DDRC2LP : Nat := 201
def DDRPHYC : Nat := 202
def DDRPHYCLP : Nat := 203
def DDRCAPB : Nat := 204
def DDRCAPBLP : Nat := 205
def AXIDCG : Nat := 206
def DDRPHYCAPB : Nat := 207
def DDRPHYCAPBLP : Nat := 208
def RTC : Nat := 211
def CK_DBG : Nat := 214
def CK_MPU : Nat := 216
def CK_AXI : Nat := 217
def CK_MCU : Nat := 218

/-- Sentinel `_UNKNOWN_ID` / `_UNKNOWN_SEL` (0xff) used in the gate table. -/
def UNKNOWN_ID : Nat := 255

/-! ## Gate controller data model (struct stm32mp1_clk_gate) -/

/-- Embedding of `struct stm32mp1_clk_gate`: register byte offset, bit
position, consumer-facing clock id, SET/CLR register shape flag and the
security class (`secure = true` for `SEC`, `false` for `N_S`), plus the
parent-selector / fixed-parent references.  Offsets and bit positions are
carried for fidelity of the table but the per-gate semantics below only
depends on the gate's identity (each gate owns one register bit). -/
structure ClkGate where
  offset : Nat
  bit : Nat
  clock_id : Nat
  set_clr : Bool
  secure : Bool
  sel : Nat
  fixed : Nat
deriving Repr, DecidableEq, Inhabited

/-- Environment of the gate controller: the static gate table
(`stm32mp1_clk_gate[]`) and the result of `stm32_rcc_is_secure()`. -/
structure ClkEnv where
  gates : List ClkGate
  rccSecure : Bool

/-- Mutable state touched by the gate controller: the per-gate reference
counters (`gate_refcounts[]`, unsigned int, hence the mod 2^32 increment)
and the physical enable bit of each gate's register
(one bit per gate, indexed like the gate table). -/
structure GateSt where
  refcounts : Nat → Nat
  hwbits : Nat → Bool

/-- Embedding of `clock_is_always_on`: ids at or below the oscillator
threshold, the PLL1_P..PLL3_R output legs, and the CK_AXI/CK_MPU/CK_MCU
bus roots are permanently on. -/
def clock_is_always_on (id : Nat) : Bool :=
  (id ≤ CK_HSE_DIV2 || (PLL1_P ≤ id && id ≤ PLL3_R)) ||
    (id = CK_AXI || id = CK_MPU || id = CK_MCU)

/-- Embedding of `stm32mp1_clk_get_gated_id`: first index of the gate table
whose `clock_id` matches, `none` for the C function's `-1`. -/
def stm32mp1_clk_get_gated_id (gates : List ClkGate) (id : Nat) : Option Nat :=
  gates.findIdx? (fun g => g.clock_id = id)

/-- Embedding of `gate_ref`: the gate table entry at index `i` (the C
code indexes the static array directly; indices produced by
`stm32mp1_clk_get_gated_id` are always in range). -/
def gate_ref (env : ClkEnv) (i : Nat) : ClkGate :=
  env.gates.getD i default

/-- Embedding of `gate_is_non_secure`: non-secure class, or the whole RCC
interface is non-secure. -/
def gate_is_non_secure (env : ClkEnv) (g : ClkGate) : Bool :=
  !g.secure || !env.rccSecure

/-- Embedding of `__clk_enable` for the gate at table index `i`: both
register shapes (write to the SET sub-register, or read-modify-write set)
set the gate's enable bit. -/
def clk_hw_enable (st : GateSt) (i : Nat) : GateSt :=
  { st with hwbits := fun j => if j = i then true else st.hwbits j }

/-- Embedding of `__clk_disable` for the gate at table index `i`: both
register shapes (write to the CLR sub-register, or read-modify-write
clear) clear the gate's enable bit. -/
def clk_hw_disable (st : GateSt) (i : Nat) : GateSt :=
  { st with hwbits := fun j => if j = i then false else st.hwbits j }

/-- Embedding of `clk_stm32_enable`.  `none` models `panic()` on an
unknown clock id; `some st` is `TEE_SUCCESS` with post-state `st`. -/
def clk_stm32_enable (env : ClkEnv) (st : GateSt) (id : Nat) : Option GateSt :=
  if clock_is_always_on id then
    some st
  else
    match stm32mp1_clk_get_gated_id env.gates id with
    | none => none
    | some i =>
      if gate_is_non_secure env (gate_ref env i) then
        some (clk_hw_enable st i)
      else
        let st1 := if st.refcounts i = 0 then clk_hw_enable st i else st
        some { st1 with
               refcounts := fun j =>
                 if j = i then (st.refcounts i + 1) % 2 ^ 32 else st1.refcounts j }

/-- Embedding of `clk_stm32_disable`.  `none` models `panic()` on an
unknown clock id and the `assert(gate_refcounts[i])` failure on refcount
underflow. -/
def clk_stm32_disable (env : ClkEnv) (st : GateSt) (id : Nat) : Option GateSt :=
  if clock_is_always_on id then
    some st
  else
    match stm32mp1_clk_get_gated_id env.gates id with
    | none => none
    | some i =>
      if gate_is_non_secure env (gate_ref env i) then
        some st
      else
        if st.refcounts i = 0 then
          none
        else
          let st1 := { st with
                       refcounts := fun j =>
                         if j = i then st.refcounts i - 1 else st.refcounts j }
          if st1.refcounts i = 0 then some (clk_hw_disable st1 i) else some st1

/-- Embedding of `clk_stm32_is_enabled`: always-on ids report enabled, an
unknown id reports `false` (the C code returns false, it does not panic),
otherwise the gate's physical bit is read back. -/
def clk_stm32_is_enabled (env : ClkEnv) (st : GateSt) (id : Nat) : Bool :=
  if clock_is_always_on id then
    true
  else
    match stm32mp1_clk_get_gated_id env.gates id with
    | none => false
    | some i => st.hwbits i

/-! ## Concrete gate table instance

The unconditionally compiled entries of `stm32mp1_clk_gate[]` (the secure
DDR/APB5/AHB5/TZAHB6/BDCR entries plus the always-present non-secure
TIM12_K, TIM15_K and CK_DBG entries).  Register offsets and bit positions
follow the RCC header; they are semantically inert here. -/
def stm32mp1_clk_gate : List ClkGate :=
  [ { offset := 0xD8, bit := 0, clock_id := DDRC1, set_clr := false,
      secure := true, sel := UNKNOWN_ID, fixed := 22 },
    { offset := 0xD8, bit := 1, clock_id := DDRC1LP, set_clr := false,
      secure := true, sel := UNKNOWN_ID, fixed := 22 },
    { offset := 0xD8, bit := 2, clock_id := DDRC2, set_clr := false,
      secure := true, sel := UNKNOWN_ID, fixed := 22 },
    { offset := 0xD8, bit := 3, clock_id := DDRC2LP, set_clr := false,
      secure := true, sel := UNKNOWN_ID, fixed := 22 },
    { offset := 0xD8, bit := 4, clock_id := DDRPHYC, set_clr := false,
      secure := true, sel := UNKNOWN_ID, fixed := 15 },
    { offset := 0xD8, bit := 5, clock_id := DDRPHYCLP, set_clr := false,
      secure := true, sel := UNKNOWN_ID, fixed := 15 },
    { offset := 0xD8, bit := 6, clock_id := DDRCAPB, set_clr := false,
      secure := true, sel := UNKNOWN_ID, fixed := 26 },
    { offset := 0xD8, bit := 7, clock_id := DDRCAPBLP, set_clr := false,
      secure := true, sel := UNKNOWN_ID, fixed := 26 },
    { offset := 0xD8, bit := 8, clock_id := AXIDCG, set_clr := false,
      secure := true, sel := UNKNOWN_ID, fixed := 22 },
    { offset := 0xD8, bit := 9, clock_id := DDRPHYCAPB, set_clr := false,
      secure := true, sel := UNKNOWN_ID, fixed := 26 },
    { offset := 0xD8, bit := 10, clock_id := DDRPHYCAPBLP, set_clr := false,
      secure := true, sel := UNKNOWN_ID, fixed := 26 },
    { offset := 0x208, bit := 0, clock_id := SPI6_K, set_clr := true,
      secure := true, sel := 2, fixed := UNKNOWN_ID },
    { offset := 0x208, bit := 2, clock_id := I2C4_K, set_clr := true,
      secure := true, sel := 1, fixed := UNKNOWN_ID },
    { offset := 0x208, bit := 3, clock_id := I2C6_K, set_clr := true,
      secure := true, sel := 1, fixed := UNKNOWN_ID },
    { offset := 0x208, bit := 4, clock_id := USART1_K, set_clr := true,
      secure := true, sel := 3, fixed := UNKNOWN_ID },
    { offset := 0x208, bit := 8, clock_id := RTCAPB, set_clr := true,
      secure := true, sel := UNKNOWN_ID, fixed := 27 },
    { offset := 0x208, bit := 11, clock_id := TZC1, set_clr := true,
      secure := true, sel := UNKNOWN_ID, fixed := 27 },
    { offset := 0x208, bit := 12, clock_id := TZC2, set_clr := true,
      secure := true, sel := UNKNOWN_ID, fixed := 27 },
    { offset := 0x208, bit := 13, clock_id := TZPC, set_clr := true,
      secure := true, sel := UNKNOWN_ID, fixed := 27 },
    { offset := 0x208, bit := 15, clock_id := IWDG1, set_clr := true,
      secure := true, sel := UNKNOWN_ID, fixed := 27 },
    { offset := 0x208, bit := 16, clock_id := BSEC, set_clr := true,
      secure := true, sel := UNKNOWN_ID, fixed := 27 },
    { offset := 0x208, bit := 20, clock_id := STGEN_K, set_clr := true,
      secure := true, sel := 0, fixed := UNKNOWN_ID },
    { offset := 0x210, bit := 0, clock_id := GPIOZ, set_clr := true,
      secure := true, sel := UNKNOWN_ID, fixed := 27 },
    { offset := 0x210, bit := 4, clock_id := CRYP1, set_clr := true,
      secure := true, sel := UNKNOWN_ID, fixed := 27 },
    { offset := 0x210, bit := 5, clock_id := HASH1, set_clr := true,
      secure := true, sel := UNKNOWN_ID, fixed := 27 },
    { offset := 0x210, bit := 6, clock_id := RNG1_K, set_clr := true,
      secure := true, sel := 4, fixed := UNKNOWN_ID },
    { offset := 0x210, bit := 8, clock_id := BKPSRAM, set_clr := true,
      secure := true, sel := UNKNOWN_ID, fixed := 27 },
    { offset := 0x218, bit := 0, clock_id := MDMA, set_clr := true,
      secure := true, sel := UNKNOWN_ID, fixed := 27 },
    { offset := 0x140, bit := 20, clock_id := RTC, set_clr := false,
      secure := true, sel := 15, fixed := UNKNOWN_ID },
    { offset := 0xA00, bit := 6, clock_id := TIM12_K, set_clr := true,
      secure := false, sel := UNKNOWN_ID, fixed := 18 },
    { offset := 0xA08, bit := 2, clock_id := TIM15_K, set_clr := true,
      secure := false, sel := UNKNOWN_ID, fixed := 19 },
    { offset := 0x800, bit := 8, clock_id := CK_DBG, set_clr := false,
      secure := false, sel := UNKNOWN_ID, fixed := UNKNOWN_ID } ]

/-- Concrete environment: the table above with a secure RCC interface. -/
def clkEnvSec : ClkEnv := { gates := stm32mp1_clk_gate, rccSecure := true }

/-- Concrete all-zero gate state used by witnesses. -/
def gateSt0 : GateSt := { refcounts := fun _ => 0, hwbits := fun _ => false }

example : clk_stm32_is_enabled clkEnvSec gateSt0 CK_MPU = true := by decide

example : clk_stm32_is_enabled clkEnvSec gateSt0 250 = false := by decide

/-! ## Suspend/resume gate resynchronisation (stm32_clock_resume) -/

/-- Loop body of the gate-resynchronisation `for` loop at the end of
`stm32_clock_resume`: non-secure gates are skipped; a secure gate is
forced on when its refcount is nonzero and forced off when it is zero. -/
def resume_gate_step (env : ClkEnv) (s : GateSt) (idx : Nat) : GateSt :=
  let g := gate_ref env idx
  if gate_is_non_secure env g then s
  else if s.refcounts idx ≠ 0 then clk_hw_enable s idx
  else clk_hw_disable s idx

/-- Embedding of the gate-resynchronisation loop at the end of
`stm32_clock_resume`: every gate index is visited in table order. -/
def stm32_clock_resume_sync (env : ClkEnv) (st : GateSt) : GateSt :=
  (List.range env.gates.length).foldl (resume_gate_step env) st

/-- Embedding of `stm32_clock_resume`: the restore phase
(`restore_pll34_state` / `restore_mux_cfg` / `restore_sc_cfg` /
`restore_regular_cfg`) replays the snapshot into the enable registers,
abstracted as replacing the gate bits by the snapshot bits; the
resynchronisation loop then re-derives every secure gate bit from the
refcount table. -/
def stm32_clock_resume (env : ClkEnv) (snapshot : Nat → Bool) (st : GateSt) : GateSt :=
  stm32_clock_resume_sync env { st with hwbits := snapshot }

/-! ## PLL VCO computation (stm32mp1_pll_get_fvco) -/

/-- Field `DIVM` of `RCC_PLLNCFGR1` (bits 21:16; layout from the RCC
register header). -/
def pll_divm (cfgr1 : Nat) : Nat := cfgr1 / 2 ^ 16 % 2 ^ 6

/-- Field `DIVN` of `RCC_PLLNCFGR1` (bits 8:0). -/
def pll_divn (cfgr1 : Nat) : Nat := cfgr1 % 2 ^ 9

/-- Flag `FRACLE` of `RCC_PLLNFRACR` (bit 16). -/
def pll_fracle (fracr : Nat) : Bool := fracr / 2 ^ 16 % 2 = 1

/-- Field `FRACV` of `RCC_PLLNFRACR` (bits 15:3). -/
def pll_fracv (fracr : Nat) : Nat := fracr / 2 ^ 3 % 2 ^ 13

/-- Embedding of `stm32mp1_pll_get_fvco` on the values read from the
PLL's CFGR1 and FRACR registers and the reference frequency returned by
`stm32mp1_pll_get_fref`.  The fractional branch computes on a 64-bit
intermediate and the result is truncated to `unsigned long` (32-bit); the
non-fractional branch multiplies in `unsigned long` arithmetic. -/
def stm32mp1_pll_get_fvco (refclk cfgr1 fracr : Nat) : Nat :=
  let divm := pll_divm cfgr1
  let divn := pll_divn cfgr1
  if pll_fracle fracr then
    let fracv := pll_fracv fracr
    let numerator := (divn + 1) * 2 ^ 13 + fracv
    let numerator := refclk * numerator % 2 ^ 64
    let denominator := (divm + 1) * 2 ^ 13
    numerator / denominator % 2 ^ 32
  else
    refclk * (divn + 1) % 2 ^ 32 / (divm + 1)

/-! ## Operating-point switch (stm32mp1_set_opp_khz) -/

/-- Field `RCC_MPCKSELR` source value selecting PLL1P directly (the
`CLK_MPU_PLL1P` constant in the driver ends in source value 2). -/
def RCC_MPCKSELR_PLL : Nat := 2

/-- Field `RCC_MPCKSELR` source value selecting PLL1P through the MPU
divider (the `CLK_MPU_PLL1P_DIV` constant ends in source value 3). -/
def RCC_MPCKSELR_PLL_MPUDIV : Nat := 3

/-- State owned by the operating-point manager: the cached current
frequency `current_opp_khz`, the validity of the computed PLL1 settings
(`stm32mp1_clk_pll1_settings_are_valid`), and the remaining hardware
state `hw` (registers and PLL), which the configuration procedure may
rewrite. -/
structure OppSt (H : Type) where
  current_opp_khz : Nat
  settings_valid : Bool
  hw : H

/-- Embedding of `stm32mp1_set_opp_khz`, higher-order in the hardware
accessors it calls: `read_mpu_src` reads `RCC_MPCKSELR & RCC_SELR_SRC_MASK`
and `pll1_config_from_opp_khz` is the PLL1 reprogramming procedure
(returning the new hardware state and its `int` status).  `none` models
the `panic()` taken when restoring the previous operating point fails. -/
def stm32mp1_set_opp_khz {H : Type} (read_mpu_src : H → Nat)
    (pll1_config_from_opp_khz : Nat → H → H × Int)
    (st : OppSt H) (freq_khz : Nat) : Option (OppSt H × Int) :=
  if freq_khz = st.current_opp_khz then
    some (st, 0)
  else if !st.settings_valid then
    some (st, -1)
  else
    let mpu_src := read_mpu_src st.hw
    if mpu_src ≠ RCC_MPCKSELR_PLL ∧ mpu_src ≠ RCC_MPCKSELR_PLL_MPUDIV then
      some (st, -1)
    else
      let res := pll1_config_from_opp_khz freq_khz st.hw
      if res.2 ≠ 0 then
        let res2 := pll1_config_from_opp_khz st.current_opp_khz res.1
        if res2.2 ≠ 0 then
          none
        else
          some ({ st with hw := res2.1 }, -1)
      else
        some ({ st with hw := res.1, current_opp_khz := freq_khz }, 0)

/-! ## Rounding of a requested operating point (stm32mp1_round_opp_khz) -/

/-- State consulted by `stm32mp1_round_opp_khz`: the validity marker of
`pll1_settings`, its frequency column `freq[]` (one slot per OPP entry)
and the cached current frequency. -/
structure Pll1OppTable where
  settings_valid : Bool
  freq : List Nat
  current_opp_khz : Nat

/-- Embedding of `stm32mp1_round_opp_khz` (the value stored through the
`freq_khz` pointer): with no valid settings the current frequency is
returned; otherwise the table is scanned keeping the largest entry that
is at most the request, starting from 0. -/
def stm32mp1_round_opp_khz (t : Pll1OppTable) (freq_khz : Nat) : Nat :=
  if !t.settings_valid then
    t.current_opp_khz
  else
    t.freq.foldl
      (fun round_opp f => if f ≤ freq_khz ∧ round_opp < f then f else round_opp) 0

/-! ## Timer-clock rate rule (get_timer_rate, clk_stm32_get_rate) -/

/-- Register state read by `get_timer_rate`: the raw APB1/APB2 divider
registers and the TIMG1/TIMG2 prescaler registers; the code masks the
divider with `RCC_APBXDIV_MASK` (3 bits) and the prescaler enable with
`RCC_TIMGXPRER_TIMGXPRE` (bit 0). -/
structure TimerRegs where
  apb1divr : Nat
  apb2divr : Nat
  timg1prer : Nat
  timg2prer : Nat

/-- Embedding of `get_timer_rate`: with the APB prescaler disengaged the
parent rate passes through; otherwise it is multiplied by
`(timgxpre + 1) * 2`.  `none` models the `panic()` on a bus other than
1 or 2 (never reached by the driver). -/
def get_timer_rate (regs : TimerRegs) (parent_rate : Nat) (apb_bus : Nat) : Option Nat :=
  match apb_bus with
  | 1 =>
    let apbxdiv := regs.apb1divr % 2 ^ 3
    let timgxpre := regs.timg1prer % 2
    if apbxdiv = 0 then some parent_rate
    else some (parent_rate * (timgxpre + 1) * 2)
  | 2 =>
    let apbxdiv := regs.apb2divr % 2 ^ 3
    let timgxpre := regs.timg2prer % 2
    if apbxdiv = 0 then some parent_rate
    else some (parent_rate * (timgxpre + 1) * 2)
  | _ => none

/-- Embedding of `clk_stm32_get_rate`, higher-order in the generic
resolution it builds on: `get_parent` is `__clk_get_parent` (negative for
"no parent") and `parent_rate` is `__clk_get_parent_rate`.  After generic
resolution the timer rule is applied for the APB1 timer kernel-clock id
range and then for the APB2 range. -/
def clk_stm32_get_rate (get_parent : Nat → Int) (parent_rate : Int → Nat)
    (regs : TimerRegs) (id : Nat) : Option Nat :=
  let p := get_parent id
  if p < 0 then
    some 0
  else do
    let rate := parent_rate p
    let rate ←
      if TIM2_K ≤ id ∧ id ≤ TIM14_K then get_timer_rate regs rate 1 else some rate
    let rate ←
      if TIM1_K ≤ id ∧ id ≤ TIM17_K then get_timer_rate regs rate 2 else some rate
    some rate

/-! ## Claim C5: always-on clocks are excluded from gating -/

/-- C5: for every clock id in the permanently-on set (ids at or below the
fixed threshold, the PLL1_P..PLL3_R legs, and the CK_AXI/CK_MPU/CK_MCU
roots), `enable` is a no-op returning success, `disable` is a no-op, and
`is_enabled` returns true, with no refcount or register change. -/
theorem clk_always_on_noop (env : ClkEnv) (st : GateSt) (id : Nat)
    (h : clock_is_always_on id = true) :
    clk_stm32_enable env st id = some st ∧
    clk_stm32_disable env st id = some st ∧
    clk_stm32_is_enabled env st id = true := by
  refine ⟨?_, ?_, ?_⟩ <;>
    simp [clk_stm32_enable, clk_stm32_disable, clk_stm32_is_enabled, h]

/-- Witness for C5 at the CPU clock id. -/
theorem clk_always_on_noop_witness :
    clock_is_always_on CK_MPU = true ∧
    (clk_stm32_enable clkEnvSec gateSt0 CK_MPU = some gateSt0 ∧
     clk_stm32_disable clkEnvSec gateSt0 CK_MPU = some gateSt0 ∧
     clk_stm32_is_enabled clkEnvSec gateSt0 CK_MPU = true) :=
  ⟨by decide, clk_always_on_noop clkEnvSec gateSt0 CK_MPU (by decide)⟩

/-! ## Claim C7: non-secure gates (or a non-secure RCC) -/

/-- C7: for a gate of non-secure class, or any gate while the RCC
interface is non-secure, `enable` writes the hardware bit unconditionally
without consulting or changing any reference counter, and `disable`
returns without any state change. -/
theorem clk_nonsecure_gate_spec (env : ClkEnv) (st : GateSt) (id i : Nat)
    (hao : clock_is_always_on id = false)
    (hfound : stm32mp1_clk_get_gated_id env.gates id = some i)
    (hns : gate_is_non_secure env (gate_ref env i) = true) :
    (∃ s', clk_stm32_enable env st id = some s' ∧
       s'.hwbits i = true ∧
       (∀ j, j ≠ i → s'.hwbits j = st.hwbits j) ∧
       (∀ j, s'.refcounts j = st.refcounts j)) ∧
    clk_stm32_disable env st id = some st := by
  constructor
  · refine ⟨clk_hw_enable st i, ?_, ?_, ?_, ?_⟩
    · simp [clk_stm32_enable, hao, hfound, hns]
    · simp [clk_hw_enable]
    · intro j hj
      simp [clk_hw_enable, hj]
    · intro j
      simp [clk_hw_enable]
  · simp [clk_stm32_disable, hao, hfound, hns]

/-- Witness for C7 at the always-non-secure TIM12 kernel clock (gate
index 29 of the concrete table). -/
theorem clk_nonsecure_gate_spec_witness :
    clock_is_always_on TIM12_K = false ∧
    stm32mp1_clk_get_gated_id clkEnvSec.gates TIM12_K = some 29 ∧
    gate_is_non_secure clkEnvSec (gate_ref clkEnvSec 29) = true ∧
    ((∃ s', clk_stm32_enable clkEnvSec gateSt0 TIM12_K = some s' ∧
        s'.hwbits 29 = true ∧
        (∀ j, j ≠ 29 → s'.hwbits j = gateSt0.hwbits j) ∧
        (∀ j, s'.refcounts j = gateSt0.refcounts j)) ∧
      clk_stm32_disable clkEnvSec gateSt0 TIM12_K = some gateSt0) :=
  ⟨by decide, by decide, by decide,
   clk_nonsecure_gate_spec clkEnvSec gateSt0 TIM12_K 29 (by decide) (by decide)
     (by decide)⟩

/-! ## Claim C6: unknown clock identifiers -/

/-- C6 (amended): a clock id that is neither always-on nor present in the
gate table makes `enable` and `disable` abort, while `is_enabled` returns
false without aborting. -/
theorem clk_unknown_id_spec (env : ClkEnv) (st : GateSt) (id : Nat)
    (hao : clock_is_always_on id = false)
    (hnone : stm32mp1_clk_get_gated_id env.gates id = none) :
    clk_stm32_enable env st id = none ∧
    clk_stm32_disable env st id = none ∧
    clk_stm32_is_enabled env st id = false := by
  refine ⟨?_, ?_, ?_⟩ <;>
    simp [clk_stm32_enable, clk_stm32_disable, clk_stm32_is_enabled, hao, hnone]

/-- C6 counterexample: clock id 250 is not always-on and has no gate
entry; `clk_stm32_is_enabled` returns the value `false` rather than
aborting (whereas `clk_stm32_enable` does abort), refuting the claim that
all three public operations abort on an unknown id. -/
theorem clk_unknown_id_counterexample :
    clock_is_always_on 250 = false ∧
    stm32mp1_clk_get_gated_id clkEnvSec.gates 250 = none ∧
    clk_stm32_is_enabled clkEnvSec gateSt0 250 = false ∧
    clk_stm32_enable clkEnvSec gateSt0 250 = none :=
  ⟨by decide, by decide, by decide, rfl⟩

/-- Witness for the amended C6 statement at clock id 250. -/
theorem clk_unknown_id_spec_witness :
    clock_is_always_on 250 = false ∧
    stm32mp1_clk_get_gated_id clkEnvSec.gates 250 = none ∧
    (clk_stm32_enable clkEnvSec gateSt0 250 = none ∧
     clk_stm32_disable clkEnvSec gateSt0 250 = none ∧
     clk_stm32_is_enabled clkEnvSec gateSt0 250 = false) :=
  ⟨by decide, by decide,
   clk_unknown_id_spec clkEnvSec gateSt0 250 (by decide) (by decide)⟩

/-! ## Claim C4: the VCO formula of stm32mp1_pll_get_fvco -/

/-- C4: with the fractional-enable flag set, `stm32mp1_pll_get_fvco`
computes `refclk * ((divn+1)*2^13 + fracv) / ((divm+1)*2^13)` exactly on
a 64-bit intermediate (whenever the mathematical result fits the 32-bit
return type), without the flag it computes `refclk*(divn+1)/(divm+1)`,
and at refclk 25 MHz, divm 1, divn 49, fraction disabled it returns
exactly 625000000. -/
theorem stm32mp1_pll_get_fvco_spec (refclk cfgr1 fracr : Nat)
    (href : refclk < 2 ^ 32)
    (hfit1 : refclk * ((pll_divn cfgr1 + 1) * 2 ^ 13 + pll_fracv fracr) /
        ((pll_divm cfgr1 + 1) * 2 ^ 13) < 2 ^ 32)
    (hfit2 : refclk * (pll_divn cfgr1 + 1) < 2 ^ 32) :
    (pll_fracle fracr = true →
      stm32mp1_pll_get_fvco refclk cfgr1 fracr =
        refclk * ((pll_divn cfgr1 + 1) * 2 ^ 13 + pll_fracv fracr) /
          ((pll_divm cfgr1 + 1) * 2 ^ 13)) ∧
    (pll_fracle fracr = false →
      stm32mp1_pll_get_fvco refclk cfgr1 fracr =
        refclk * (pll_divn cfgr1 + 1) / (pll_divm cfgr1 + 1)) ∧
    stm32mp1_pll_get_fvco 25000000 65585 0 = 625000000 := by
  refine ⟨?_, ?_, by decide⟩
  · intro hf
    have h1 : pll_divn cfgr1 < 2 ^ 9 := Nat.mod_lt _ (by norm_num)
    have h2 : pll_fracv fracr < 2 ^ 13 := Nat.mod_lt _ (by norm_num)
    have hn : (pll_divn cfgr1 + 1) * 2 ^ 13 + pll_fracv fracr < 2 ^ 23 := by
      omega
    have h64 : refclk * ((pll_divn cfgr1 + 1) * 2 ^ 13 + pll_fracv fracr) <
        2 ^ 64 := by
      have hlt : refclk * ((pll_divn cfgr1 + 1) * 2 ^ 13 + pll_fracv fracr) <
          2 ^ 32 * 2 ^ 23 :=
        mul_lt_mul'' href hn (Nat.zero_le _) (Nat.zero_le _)
      exact lt_trans hlt (by norm_num)
    simp only [stm32mp1_pll_get_fvco, hf, if_true]
    rw [Nat.mod_eq_of_lt h64, Nat.mod_eq_of_lt hfit1]
  · intro hf
    simp only [stm32mp1_pll_get_fvco, hf, Bool.false_eq_true, if_false]
    rw [Nat.mod_eq_of_lt hfit2]

/-- Witness for C4 at the documented test point (25 MHz reference,
DIVM = 1, DIVN = 49, fraction disabled). -/
theorem stm32mp1_pll_get_fvco_spec_witness :
    25000000 < 2 ^ 32 ∧
    ((pll_fracle 0 = true →
       stm32mp1_pll_get_fvco 25000000 65585 0 =
         25000000 * ((pll_divn 65585 + 1) * 2 ^ 13 + pll_fracv 0) /
           ((pll_divm 65585 + 1) * 2 ^ 13)) ∧
     (pll_fracle 0 = false →
       stm32mp1_pll_get_fvco 25000000 65585 0 =
         25000000 * (pll_divn 65585 + 1) / (pll_divm 65585 + 1)) ∧
     stm32mp1_pll_get_fvco 25000000 65585 0 = 625000000) :=
  ⟨by decide,
   stm32mp1_pll_get_fvco_spec 25000000 65585 0 (by decide) (by decide) (by decide)⟩

/-! ## Claim C3: behaviour of stm32mp1_set_opp_khz -/

/-- C3: `stm32mp1_set_opp_khz` succeeds without touching hardware when the
request equals the current operating point; it fails without touching
hardware when the settings are invalid or the MPU source is not
PLL-derived; when the configuration procedure fails it re-runs the same
procedure on the previous frequency, returning an error if the restore
succeeds and aborting if the restore fails too. -/
theorem stm32mp1_set_opp_khz_spec {H : Type} (read_mpu_src : H → Nat)
    (cfg : Nat → H → H × Int) (st : OppSt H) (freq : Nat) :
    (freq = st.current_opp_khz →
      stm32mp1_set_opp_khz read_mpu_src cfg st freq = some (st, 0)) ∧
    (freq ≠ st.current_opp_khz → st.settings_valid = false →
      stm32mp1_set_opp_khz read_mpu_src cfg st freq = some (st, -1)) ∧
    (freq ≠ st.current_opp_khz → st.settings_valid = true →
      read_mpu_src st.hw ≠ RCC_MPCKSELR_PLL →
      read_mpu_src st.hw ≠ RCC_MPCKSELR_PLL_MPUDIV →
      stm32mp1_set_opp_khz read_mpu_src cfg st freq = some (st, -1)) ∧
    (freq ≠ st.current_opp_khz → st.settings_valid = true →
      (read_mpu_src st.hw = RCC_MPCKSELR_PLL ∨
        read_mpu_src st.hw = RCC_MPCKSELR_PLL_MPUDIV) →
      (cfg freq st.hw).2 ≠ 0 →
      (cfg st.current_opp_khz (cfg freq st.hw).1).2 = 0 →
      stm32mp1_set_opp_khz read_mpu_src cfg st freq =
        some ({ st with hw := (cfg st.current_opp_khz (cfg freq st.hw).1).1 },
              -1)) ∧
    (freq ≠ st.current_opp_khz → st.settings_valid = true →
      (read_mpu_src st.hw = RCC_MPCKSELR_PLL ∨
        read_mpu_src st.hw = RCC_MPCKSELR_PLL_MPUDIV) →
      (cfg freq st.hw).2 ≠ 0 →
      (cfg st.current_opp_khz (cfg freq st.hw).1).2 ≠ 0 →
      stm32mp1_set_opp_khz read_mpu_src cfg st freq = none) ∧
    (freq ≠ st.current_opp_khz → st.settings_valid = true →
      (read_mpu_src st.hw = RCC_MPCKSELR_PLL ∨
        read_mpu_src st.hw = RCC_MPCKSELR_PLL_MPUDIV) →
      (cfg freq st.hw).2 = 0 →
      stm32mp1_set_opp_khz read_mpu_src cfg st freq =
        some ({ st with hw := (cfg freq st.hw).1, current_opp_khz := freq },
              0)) := by
  refine ⟨?_, ?_, ?_, ?_, ?_, ?_⟩
  · intro h
    simp [stm32mp1_set_opp_khz, h]
  · intro h hv
    simp [stm32mp1_set_opp_khz, h, hv]
  · intro h hv h2 h3
    simp [stm32mp1_set_opp_khz, h, hv, h2, h3]
  · intro h hv hsrc hr1 hr2
    rcases hsrc with hs | hs <;>
      simp [stm32mp1_set_opp_khz, h, hv, hs, hr1, hr2,
            RCC_MPCKSELR_PLL, RCC_MPCKSELR_PLL_MPUDIV]
  · intro h hv hsrc hr1 hr2
    rcases hsrc with hs | hs <;>
      simp [stm32mp1_set_opp_khz, h, hv, hs, hr1, hr2,
            RCC_MPCKSELR_PLL, RCC_MPCKSELR_PLL_MPUDIV]
  · intro h hv hsrc hr1
    rcases hsrc with hs | hs <;>
      simp [stm32mp1_set_opp_khz, h, hv, hs, hr1,
            RCC_MPCKSELR_PLL, RCC_MPCKSELR_PLL_MPUDIV]

/-- Witness for C3: a no-op request at the current frequency and a failed
reprogramming followed by a successful restore (with `H := Nat` as the
abstract hardware state). -/
theorem stm32mp1_set_opp_khz_spec_witness :
    stm32mp1_set_opp_khz (fun _ => 2)
        (fun f h => (h + 1, if f = 800000 then -1 else 0))
        ⟨650000, true, 0⟩ 650000 = some (⟨650000, true, 0⟩, 0) ∧
    stm32mp1_set_opp_khz (fun _ => 2)
        (fun f h => (h + 1, if f = 800000 then -1 else 0))
        ⟨650000, true, 0⟩ 800000 = some (⟨650000, true, 2⟩, -1) := by
  constructor
  · exact (stm32mp1_set_opp_khz_spec (fun _ => 2)
      (fun f h => (h + 1, if f = 800000 then -1 else 0))
      ⟨650000, true, 0⟩ 650000).1 rfl
  · have h := (stm32mp1_set_opp_khz_spec (fun _ => 2)
      (fun f h => (h + 1, if f = 800000 then -1 else 0))
      ⟨650000, true, 0⟩ 800000).2.2.2.1 (by decide) rfl (Or.inl rfl)
      (by norm_num) (by norm_num)
    simpa using h

/-! ## Claim C9: stm32mp1_round_opp_khz -/

theorem round_fold_ge (x : Nat) (l : List Nat) (a : Nat) :
    a ≤ l.foldl (fun r f => if f ≤ x ∧ r < f then f else r) a := by
  induction l generalizing a with
  | nil => exact Nat.le_refl a
  | cons g l ih =>
    simp only [List.foldl_cons]
    split
    · exact Nat.le_trans (by omega) (ih g)
    · exact ih a

theorem round_fold_cases (x : Nat) (l : List Nat) (a : Nat) :
    l.foldl (fun r f => if f ≤ x ∧ r < f then f else r) a = a ∨
      (l.foldl (fun r f => if f ≤ x ∧ r < f then f else r) a ∈ l ∧
        l.foldl (fun r f => if f ≤ x ∧ r < f then f else r) a ≤ x) := by
  induction l generalizing a with
  | nil => exact Or.inl rfl
  | cons g l ih =>
    simp only [List.foldl_cons]
    split
    · rename_i hcond
      rcases ih g with h | h
      · exact Or.inr ⟨by simp [h], by omega⟩
      · exact Or.inr ⟨List.mem_cons_of_mem _ h.1, h.2⟩
    · rcases ih a with h | h
      · exact Or.inl h
      · exact Or.inr ⟨List.mem_cons_of_mem _ h.1, h.2⟩

theorem round_fold_ub (x : Nat) (l : List Nat) (a : Nat) :
    ∀ f ∈ l, f ≤ x → f ≤ l.foldl (fun r f => if f ≤ x ∧ r < f then f else r) a := by
  induction l generalizing a with
  | nil => intro f hf; exact absurd hf (List.not_mem_nil f)
  | cons g l ih =>
    intro f hf hfx
    simp only [List.foldl_cons]
    rcases List.mem_cons.mp hf with rfl | hmem
    · split
      · exact round_fold_ge x l f
      · rename_i hcond
        have hga : f ≤ a := by omega
        exact Nat.le_trans hga (round_fold_ge x l a)
    · split
      · exact ih g f hmem hfx
      · exact ih a f hmem hfx

theorem round_fold_mono (l : List Nat) :
    ∀ a a' x x', a ≤ a' → x ≤ x' →
      l.foldl (fun r f => if f ≤ x ∧ r < f then f else r) a ≤
        l.foldl (fun r f => if f ≤ x' ∧ r < f then f else r) a' := by
  induction l with
  | nil => intro a a' x x' ha _; exact ha
  | cons g l ih =>
    intro a a' x x' ha hx
    simp only [List.foldl_cons]
    apply ih _ _ x x' _ hx
    split <;> split <;> omega

/-- C9 counterexample: with a fully populated valid table and a request
below every table entry, `stm32mp1_round_opp_khz` yields 0, which is not
a table frequency, refuting "returns the largest table frequency ≤ the
requested value" as stated. -/
theorem stm32mp1_round_opp_khz_counterexample :
    stm32mp1_round_opp_khz ⟨true, [650000, 800000], 650000⟩ 100 = 0 ∧
    ¬ (stm32mp1_round_opp_khz ⟨true, [650000, 800000], 650000⟩ 100 ∈
        ([650000, 800000] : List Nat)) := by
  decide

/-- C9 (amended): with a valid table the result is the largest table
frequency at most the request when one exists and 0 otherwise; with no
valid table the current frequency is returned; and the function is
idempotent and monotonic. -/
theorem stm32mp1_round_opp_khz_spec (t : Pll1OppTable) (x x' : Nat)
    (hx : x ≤ x') :
    (t.settings_valid = true →
      (stm32mp1_round_opp_khz t x = 0 ∨
        (stm32mp1_round_opp_khz t x ∈ t.freq ∧ stm32mp1_round_opp_khz t x ≤ x)) ∧
      (∀ f ∈ t.freq, f ≤ x → f ≤ stm32mp1_round_opp_khz t x)) ∧
    (t.settings_valid = false →
      stm32mp1_round_opp_khz t x = t.current_opp_khz) ∧
    stm32mp1_round_opp_khz t (stm32mp1_round_opp_khz t x) =
      stm32mp1_round_opp_khz t x ∧
    stm32mp1_round_opp_khz t x ≤ stm32mp1_round_opp_khz t x' := by
  refine ⟨?_, ?_, ?_, ?_⟩
  · intro hv
    constructor
    · simpa [stm32mp1_round_opp_khz, hv] using round_fold_cases x t.freq 0
    · intro f hf hfx
      simpa [stm32mp1_round_opp_khz, hv] using round_fold_ub x t.freq 0 f hf hfx
  · intro hv
    simp [stm32mp1_round_opp_khz, hv]
  · cases ht : t.settings_valid with
    | false => simp [stm32mp1_round_opp_khz, ht]
    | true =>
      simp only [stm32mp1_round_opp_khz, ht, Bool.not_true, Bool.false_eq_true,
        if_false]
      rcases round_fold_cases x t.freq 0 with h0 | hmem
      · rw [h0]
        rcases round_fold_cases 0 t.freq 0 with h | h
        · exact h
        · exact Nat.le_zero.mp h.2
      · generalize hr :
          t.freq.foldl (fun r f => if f ≤ x ∧ r < f then f else r) 0 = r at hmem ⊢
        have hub := round_fold_ub r t.freq 0 r hmem.1 (Nat.le_refl r)
        rcases round_fold_cases r t.freq 0 with h | h
        · omega
        · have h2 := h.2
          omega
  · cases ht : t.settings_valid with
    | false => simp [stm32mp1_round_opp_khz, ht]
    | true =>
      simp only [stm32mp1_round_opp_khz, ht, Bool.not_true, Bool.false_eq_true,
        if_false]
      exact round_fold_mono t.freq 0 0 x x' (Nat.le_refl 0) hx

/-- Witness for the amended C9 statement on a two-entry table. -/
theorem stm32mp1_round_opp_khz_spec_witness :
    700000 ≤ 800000 ∧
    (((⟨true, [650000, 800000], 650000⟩ : Pll1OppTable).settings_valid = true →
      (stm32mp1_round_opp_khz ⟨true, [650000, 800000], 650000⟩ 700000 = 0 ∨
        (stm32mp1_round_opp_khz ⟨true, [650000, 800000], 650000⟩ 700000 ∈
            (⟨true, [650000, 800000], 650000⟩ : Pll1OppTable).freq ∧
          stm32mp1_round_opp_khz ⟨true, [650000, 800000], 650000⟩ 700000 ≤
            700000)) ∧
      (∀ f ∈ (⟨true, [650000, 800000], 650000⟩ : Pll1OppTable).freq,
        f ≤ 700000 →
        f ≤ stm32mp1_round_opp_khz ⟨true, [650000, 800000], 650000⟩ 700000)) ∧
    ((⟨true, [650000, 800000], 650000⟩ : Pll1OppTable).settings_valid = false →
      stm32mp1_round_opp_khz ⟨true, [650000, 800000], 650000⟩ 700000 =
        (⟨true, [650000, 800000], 650000⟩ : Pll1OppTable).current_opp_khz) ∧
    stm32mp1_round_opp_khz ⟨true, [650000, 800000], 650000⟩
        (stm32mp1_round_opp_khz ⟨true, [650000, 800000], 650000⟩ 700000) =
      stm32mp1_round_opp_khz ⟨true, [650000, 800000], 650000⟩ 700000 ∧
    stm32mp1_round_opp_khz ⟨true, [650000, 800000], 650000⟩ 700000 ≤
      stm32mp1_round_opp_khz ⟨true, [650000, 800000], 650000⟩ 800000) :=
  ⟨by decide,
   stm32mp1_round_opp_khz_spec ⟨true, [650000, 800000], 650000⟩ 700000 800000
     (by decide)⟩

/-! ## Claim C10: the timer multiplier rule in clk_stm32_get_rate -/

/-- C10: for clock ids in the APB1 timer kernel-clock range
(TIM2_K..TIM14_K) and the APB2 range (TIM1_K..TIM17_K), `clk_stm32_get_rate`
applies, after generic parent-rate resolution, the timer rule: with the
APB prescaler engaged the resolved parent rate is multiplied by
`(timgxpre + 1) * 2`, otherwise it is returned unchanged; outside both
ranges the resolved parent rate is returned as is. -/
theorem clk_stm32_get_rate_timer_rule (get_parent : Nat → Int)
    (parent_rate : Int → Nat) (regs : TimerRegs) (id : Nat)
    (hp : 0 ≤ get_parent id) :
    (TIM2_K ≤ id → id ≤ TIM14_K →
      clk_stm32_get_rate get_parent parent_rate regs id =
        some (if regs.apb1divr % 2 ^ 3 = 0 then parent_rate (get_parent id)
              else parent_rate (get_parent id) * (regs.timg1prer % 2 + 1) * 2)) ∧
    (TIM1_K ≤ id → id ≤ TIM17_K →
      clk_stm32_get_rate get_parent parent_rate regs id =
        some (if regs.apb2divr % 2 ^ 3 = 0 then parent_rate (get_parent id)
              else parent_rate (get_parent id) * (regs.timg2prer % 2 + 1) * 2)) ∧
    ((id < TIM2_K ∨ (TIM14_K < id ∧ id < TIM1_K) ∨ TIM17_K < id) →
      clk_stm32_get_rate get_parent parent_rate regs id =
        some (parent_rate (get_parent id))) := by
  have hnl : ¬ get_parent id < 0 := not_lt.mpr hp
  refine ⟨?_, ?_, ?_⟩
  · intro h1 h2
    have hn : ¬ (TIM1_K ≤ id ∧ id ≤ TIM17_K) := by
      simp only [TIM1_K, TIM17_K, TIM14_K, TIM2_K] at *
      omega
    simp [clk_stm32_get_rate, hnl, get_timer_rate, h1, h2, hn]
    split <;> rfl
  · intro h1 h2
    have hn : ¬ (TIM2_K ≤ id ∧ id ≤ TIM14_K) := by
      simp only [TIM1_K, TIM17_K, TIM14_K, TIM2_K] at *
      omega
    simp [clk_stm32_get_rate, hnl, get_timer_rate, h1, h2, hn]
    split <;> rfl
  · intro h
    have hn1 : ¬ (TIM2_K ≤ id ∧ id ≤ TIM14_K) := by
      simp only [TIM1_K, TIM17_K, TIM14_K, TIM2_K] at *
      omega
    have hn2 : ¬ (TIM1_K ≤ id ∧ id ≤ TIM17_K) := by
      simp only [TIM1_K, TIM17_K, TIM14_K, TIM2_K] at *
      omega
    simp [clk_stm32_get_rate, hnl, hn1, hn2]

/-- Witness for C10 at the APB1 timer clock TIM2_K with an engaged APB1
prescaler and the TIMG1 prescaler selection set. -/
theorem clk_stm32_get_rate_timer_rule_witness :
    (0 : Int) ≤ 0 ∧
    clk_stm32_get_rate (fun _ => (0 : Int)) (fun _ => 64000000) ⟨1, 0, 1, 0⟩
      TIM2_K = some 256000000 := by
  refine ⟨le_refl 0, ?_⟩
  have h := (clk_stm32_get_rate_timer_rule (fun _ => (0 : Int))
    (fun _ => 64000000) ⟨1, 0, 1, 0⟩ TIM2_K (le_refl 0)).1
    (Nat.le_refl TIM2_K) (by decide)
  simpa using h

/-! ## Claim C8: resume resynchronises secure gates from the refcounts -/

theorem resume_gate_step_refcounts (env : ClkEnv) (s : GateSt) (idx j : Nat) :
    (resume_gate_step env s idx).refcounts j = s.refcounts j := by
  simp only [resume_gate_step, clk_hw_enable, clk_hw_disable]
  split
  · rfl
  · split <;> rfl

theorem resume_gate_step_hwbits (env : ClkEnv) (s : GateSt) (idx j : Nat) :
    (resume_gate_step env s idx).hwbits j =
      if j = idx ∧ gate_is_non_secure env (gate_ref env idx) = false
      then decide (s.refcounts idx ≠ 0) else s.hwbits j := by
  simp only [resume_gate_step, clk_hw_enable, clk_hw_disable]
  by_cases hns : gate_is_non_secure env (gate_ref env idx) = true
  · simp [hns]
  · have hns' : gate_is_non_secure env (gate_ref env idx) = false := by
      simpa using hns
    by_cases hrc : s.refcounts idx ≠ 0
    · by_cases hj : j = idx <;> simp [hns', hrc, hj]
    · by_cases hj : j = idx <;> simp [hns', hrc, hj]

theorem resume_fold_refcounts (env : ClkEnv) (l : List Nat) (st : GateSt)
    (j : Nat) :
    ((l.foldl (resume_gate_step env) st).refcounts j = st.refcounts j) := by
  induction l generalizing st with
  | nil => rfl
  | cons a l ih =>
    simp only [List.foldl_cons]
    rw [ih, resume_gate_step_refcounts]

theorem resume_fold_hwbits (env : ClkEnv) (l : List Nat) (st : GateSt)
    (j : Nat) :
    (l.foldl (resume_gate_step env) st).hwbits j =
      if j ∈ l ∧ gate_is_non_secure env (gate_ref env j) = false
      then decide (st.refcounts j ≠ 0) else st.hwbits j := by
  induction l generalizing st with
  | nil => simp
  | cons a l ih =>
    simp only [List.foldl_cons]
    rw [ih, resume_gate_step_refcounts]
    by_cases hm : j ∈ l
    · by_cases hns : gate_is_non_secure env (gate_ref env j) = false
      · simp [hm, hns]
      · rw [resume_gate_step_hwbits]
        by_cases hj : j = a
        · subst hj
          simp [hm, hns]
        · simp [hm, hns, hj]
    · rw [resume_gate_step_hwbits]
      by_cases hj : j = a
      · subst hj
        by_cases hns : gate_is_non_secure env (gate_ref env j) = false <;>
          simp [hm, hns]
      · simp [hm, hj]

/-- C8: after `stm32_clock_resume`, a secure-class gate's physical bit
equals "refcount nonzero" regardless of the snapshot bits, refcounts are
untouched, and a non-secure gate's bit is whatever the snapshot restore
wrote. -/
theorem stm32_clock_resume_spec (env : ClkEnv) (snapshot : Nat → Bool)
    (st : GateSt) (i : Nat) (hrcc : env.rccSecure = true) :
    (∀ j, (stm32_clock_resume env snapshot st).refcounts j = st.refcounts j) ∧
    (i < env.gates.length → (gate_ref env i).secure = true →
      (stm32_clock_resume env snapshot st).hwbits i =
        decide (st.refcounts i ≠ 0)) ∧
    (gate_is_non_secure env (gate_ref env i) = true →
      (stm32_clock_resume env snapshot st).hwbits i = snapshot i) := by
  refine ⟨?_, ?_, ?_⟩
  · intro j
    exact resume_fold_refcounts env _ _ j
  · intro hi hsec
    have hns : gate_is_non_secure env (gate_ref env i) = false := by
      simp [gate_is_non_secure, hsec, hrcc]
    rw [stm32_clock_resume, stm32_clock_resume_sync, resume_fold_hwbits]
    simp [List.mem_range, hi, hns]
  · intro hns
    rw [stm32_clock_resume, stm32_clock_resume_sync, resume_fold_hwbits]
    simp [hns]

/-- Witness for C8: the secure DDRC1 gate (index 0) comes out disabled
after resume from an all-ones snapshot because its refcount is zero. -/
theorem stm32_clock_resume_spec_witness :
    clkEnvSec.rccSecure = true ∧
    ((∀ j, (stm32_clock_resume clkEnvSec (fun _ => true) gateSt0).refcounts j =
        gateSt0.refcounts j) ∧
     (0 < clkEnvSec.gates.length → (gate_ref clkEnvSec 0).secure = true →
       (stm32_clock_resume clkEnvSec (fun _ => true) gateSt0).hwbits 0 =
         decide (gateSt0.refcounts 0 ≠ 0)) ∧
     (gate_is_non_secure clkEnvSec (gate_ref clkEnvSec 0) = true →
       (stm32_clock_resume clkEnvSec (fun _ => true) gateSt0).hwbits 0 =
         (fun _ => true) 0)) :=
  ⟨rfl, stm32_clock_resume_spec clkEnvSec (fun _ => true) gateSt0 0 rfl⟩

/-! ## Claim C1: secure gate refcounting -/

/-- Sequential composition of an `Option`-valued state operation
(`none` propagates, modelling a panic at any step). -/
def iterateM (f : GateSt → Option GateSt) : Nat → GateSt → Option GateSt
  | 0, st => some st
  | n + 1, st => (f st).bind (iterateM f n)

theorem clk_stm32_enable_secure_step (env : ClkEnv) (st : GateSt) (id i : Nat)
    (hao : clock_is_always_on id = false)
    (hidx : stm32mp1_clk_get_gated_id env.gates id = some i)
    (hsec : gate_is_non_secure env (gate_ref env i) = false) :
    ∃ s', clk_stm32_enable env st id = some s' ∧
      s'.refcounts i = (st.refcounts i + 1) % 2 ^ 32 ∧
      s'.hwbits i = (if st.refcounts i = 0 then true else st.hwbits i) ∧
      (∀ j, j ≠ i → s'.refcounts j = st.refcounts j ∧ s'.hwbits j = st.hwbits j) := by
  simp only [clk_stm32_enable, hao, Bool.false_eq_true, if_false, hidx, hsec]
  refine ⟨_, rfl, ?_, ?_, ?_⟩
  · simp
  · by_cases hrc : st.refcounts i = 0 <;> simp [hrc, clk_hw_enable]
  · intro j hj
    by_cases hrc : st.refcounts i = 0 <;> simp [hrc, clk_hw_enable, hj]

theorem clk_stm32_disable_secure_step (env : ClkEnv) (st : GateSt) (id i : Nat)
    (hao : clock_is_always_on id = false)
    (hidx : stm32mp1_clk_get_gated_id env.gates id = some i)
    (hsec : gate_is_non_secure env (gate_ref env i) = false) :
    (st.refcounts i = 0 → clk_stm32_disable env st id = none) ∧
    (st.refcounts i ≠ 0 →
      ∃ s', clk_stm32_disable env st id = some s' ∧
        s'.refcounts i = st.refcounts i - 1 ∧
        s'.hwbits i = (if st.refcounts i = 1 then false else st.hwbits i) ∧
        (∀ j, j ≠ i → s'.refcounts j = st.refcounts j ∧ s'.hwbits j = st.hwbits j)) := by
  constructor
  · intro hz
    simp [clk_stm32_disable, hao, hidx, hsec, hz]
  · intro hnz
    simp only [clk_stm32_disable, hao, Bool.false_eq_true, if_false, hidx, hsec,
      hnz]
    by_cases h1 : st.refcounts i = 1
    · refine ⟨clk_hw_disable
        ⟨fun j => if j = i then st.refcounts i - 1 else st.refcounts j,
         st.hwbits⟩ i, ?_, ?_, ?_, ?_⟩
      · simp [h1]
      · simp [clk_hw_disable]
      · simp [h1, clk_hw_disable]
      · intro j hj
        simp [clk_hw_disable, hj]
    · have h2 : ¬ st.refcounts i - 1 = 0 := by omega
      refine ⟨⟨fun j => if j = i then st.refcounts i - 1 else st.refcounts j,
        st.hwbits⟩, ?_, ?_, ?_, ?_⟩
      · simp [h2]
      · simp
      · simp [h1]
      · intro j hj
        simp [hj]

theorem clk_stm32_enable_secure_iter (env : ClkEnv) (id i : Nat)
    (hao : clock_is_always_on id = false)
    (hidx : stm32mp1_clk_get_gated_id env.gates id = some i)
    (hsec : gate_is_non_secure env (gate_ref env i) = false) :
    ∀ (k : Nat) (s : GateSt), s.refcounts i + k < 2 ^ 32 →
      ∃ s', iterateM (fun t => clk_stm32_enable env t id) k s = some s' ∧
        s'.refcounts i = s.refcounts i + k ∧
        s'.hwbits i = (if k = 0 ∨ s.refcounts i ≠ 0 then s.hwbits i else true) ∧
        (∀ j, j ≠ i → s'.refcounts j = s.refcounts j ∧ s'.hwbits j = s.hwbits j) := by
  intro k
  induction k with
  | zero =>
    intro s hs
    exact ⟨s, rfl, by simp, by simp, fun j _ => ⟨rfl, rfl⟩⟩
  | succ k ih =>
    intro s hs
    obtain ⟨s1, he, h1, h2, h3⟩ :=
      clk_stm32_enable_secure_step env s id i hao hidx hsec
    have hmod : (s.refcounts i + 1) % 2 ^ 32 = s.refcounts i + 1 :=
      Nat.mod_eq_of_lt (by omega)
    obtain ⟨s', hiter, hrc, hbit, hoth⟩ := ih s1 (by omega)
    refine ⟨s', ?_, by omega, ?_, ?_⟩
    · simp only [iterateM, he, Option.bind_some]
      exact hiter
    · rw [hbit, h2]
      have hne : s1.refcounts i ≠ 0 := by omega
      by_cases hrc0 : s.refcounts i = 0 <;> simp [hrc0, hne]
    · intro j hj
      obtain ⟨ha, hb⟩ := hoth j hj
      obtain ⟨hc, hd⟩ := h3 j hj
      exact ⟨ha.trans hc, hb.trans hd⟩

theorem clk_stm32_disable_secure_iter (env : ClkEnv) (id i : Nat)
    (hao : clock_is_always_on id = false)
    (hidx : stm32mp1_clk_get_gated_id env.gates id = some i)
    (hsec : gate_is_non_secure env (gate_ref env i) = false) :
    ∀ (k : Nat) (s : GateSt), k ≤ s.refcounts i →
      ∃ s', iterateM (fun t => clk_stm32_disable env t id) k s = some s' ∧
        s'.refcounts i = s.refcounts i - k ∧
        s'.hwbits i = (if k ≠ 0 ∧ s.refcounts i = k then false else s.hwbits i) ∧
        (∀ j, j ≠ i → s'.refcounts j = s.refcounts j ∧ s'.hwbits j = s.hwbits j) := by
  intro k
  induction k with
  | zero =>
    intro s hs
    exact ⟨s, rfl, by simp, by simp, fun j _ => ⟨rfl, rfl⟩⟩
  | succ k ih =>
    intro s hs
    have hnz : s.refcounts i ≠ 0 := by omega
    obtain ⟨s1, he, h1, h2, h3⟩ :=
      (clk_stm32_disable_secure_step env s id i hao hidx hsec).2 hnz
    obtain ⟨s', hiter, hrc, hbit, hoth⟩ := ih s1 (by omega)
    refine ⟨s', ?_, by omega, ?_, ?_⟩
    · simp only [iterateM, he, Option.bind_some]
      exact hiter
    · rw [hbit, h2]
      by_cases hk : s.refcounts i = k + 1
      · by_cases hk0 : k = 0
        · have hr1 : s.refcounts i = 1 := by omega
          have : ¬ (k ≠ 0 ∧ s1.refcounts i = k) := by
            simp [hk0]
          simp [this, hr1, hk, hk0]
        · have : s1.refcounts i = k := by omega
          simp [hk0, this, hk]
      · have hne : s1.refcounts i ≠ k := by omega
        have hr1 : s.refcounts i ≠ 1 := by omega
        simp [hne, hk, hr1]
    · intro j hj
      obtain ⟨ha, hb⟩ := hoth j hj
      obtain ⟨hc, hd⟩ := h3 j hj
      exact ⟨ha.trans hc, hb.trans hd⟩

/-- C1: for a secure-class gate (with a secure RCC interface), `enable`
increments the shared refcount and writes the hardware bit only on the
0 to 1 transition; `disable` aborts at refcount zero, otherwise
decrements and clears the hardware bit only on the 1 to 0 transition;
consequently, starting from refcount zero, after N enables `is_enabled`
stays true through the first N-1 disables, becomes false exactly at the
N-th, and an (N+1)-th disable aborts. -/
theorem clk_secure_gate_refcount_spec (env : ClkEnv) (id i N : Nat)
    (st : GateSt)
    (hao : clock_is_always_on id = false)
    (hidx : stm32mp1_clk_get_gated_id env.gates id = some i)
    (hsec : gate_is_non_secure env (gate_ref env i) = false)
    (hz : st.refcounts i = 0) (hN1 : 1 ≤ N) (hN : N < 2 ^ 32) :
    (∀ s : GateSt, ∃ s', clk_stm32_enable env s id = some s' ∧
        s'.refcounts i = (s.refcounts i + 1) % 2 ^ 32 ∧
        s'.hwbits i = (if s.refcounts i = 0 then true else s.hwbits i) ∧
        (∀ j, j ≠ i → s'.refcounts j = s.refcounts j ∧ s'.hwbits j = s.hwbits j)) ∧
    (∀ s : GateSt, s.refcounts i = 0 → clk_stm32_disable env s id = none) ∧
    (∀ s : GateSt, s.refcounts i ≠ 0 →
      ∃ s', clk_stm32_disable env s id = some s' ∧
        s'.refcounts i = s.refcounts i - 1 ∧
        s'.hwbits i = (if s.refcounts i = 1 then false else s.hwbits i) ∧
        (∀ j, j ≠ i → s'.refcounts j = s.refcounts j ∧ s'.hwbits j = s.hwbits j)) ∧
    (∃ stN, iterateM (fun t => clk_stm32_enable env t id) N st = some stN ∧
      stN.refcounts i = N ∧
      (∀ k, k < N → ∃ stk,
        iterateM (fun t => clk_stm32_disable env t id) k stN = some stk ∧
        clk_stm32_is_enabled env stk id = true) ∧
      (∃ stZ, iterateM (fun t => clk_stm32_disable env t id) N stN = some stZ ∧
        clk_stm32_is_enabled env stZ id = false ∧
        clk_stm32_disable env stZ id = none)) := by
  refine ⟨fun s => clk_stm32_enable_secure_step env s id i hao hidx hsec,
    fun s hz' => (clk_stm32_disable_secure_step env s id i hao hidx hsec).1 hz',
    fun s hnz => (clk_stm32_disable_secure_step env s id i hao hidx hsec).2 hnz,
    ?_⟩
  obtain ⟨stN, hiter, hrc, hbit, -⟩ :=
    clk_stm32_enable_secure_iter env id i hao hidx hsec N st (by omega)
  have hrcN : stN.refcounts i = N := by omega
  have hbitN : stN.hwbits i = true := by
    rw [hbit]
    simp [hz]
    omega
  refine ⟨stN, hiter, hrcN, ?_, ?_⟩
  · intro k hk
    obtain ⟨stk, hdk, hrck, hbitk, -⟩ :=
      clk_stm32_disable_secure_iter env id i hao hidx hsec k stN (by omega)
    refine ⟨stk, hdk, ?_⟩
    have : stk.hwbits i = true := by
      rw [hbitk, hbitN]
      have : ¬ (k ≠ 0 ∧ stN.refcounts i = k) := by omega
      simp [this]
    simp [clk_stm32_is_enabled, hao, hidx, this]
  · obtain ⟨stZ, hdZ, hrcZ, hbitZ, -⟩ :=
      clk_stm32_disable_secure_iter env id i hao hidx hsec N stN (by omega)
    have hb : stZ.hwbits i = false := by
      rw [hbitZ]
      have : N ≠ 0 ∧ stN.refcounts i = N := ⟨by omega, hrcN⟩
      simp [this]
    refine ⟨stZ, hdZ, ?_, ?_⟩
    · simp [clk_stm32_is_enabled, hao, hidx, hb]
    · exact (clk_stm32_disable_secure_step env stZ id i hao hidx hsec).1
        (by omega)

/-- Witness for C1: two nested enables of the secure DDRC1 gate from a
zero refcount leave the counter at 2. -/
theorem clk_secure_gate_refcount_spec_witness :
    ∃ stN, iterateM (fun t => clk_stm32_enable clkEnvSec t DDRC1) 2 gateSt0 =
        some stN ∧ stN.refcounts 0 = 2 := by
  obtain ⟨-, -, -, stN, hN, hrc, -⟩ :=
    clk_secure_gate_refcount_spec clkEnvSec DDRC1 0 2 gateSt0 (by decide)
      (by decide) (by decide) rfl (by decide) (by decide)
  exact ⟨stN, hN, hrc⟩

/-! ## PLL1 settings search (clk_compute_pll1_settings) -/

/-- Search-space constants of the PLL1 settings computation. -/
def POST_DIVM_MIN : Nat := 8000000
def POST_DIVM_MAX : Nat := 16000000
def DIVM_MAX : Nat := 63
def DIVN_MIN : Int := 24
def DIVN_MAX : Int := 99
def DIVP_MAX : Nat := 127
def FRAC_MAX : Int := 8192
def VCO_MIN : Nat := 800000000
def VCO_MAX : Nat := 1600000000
def UINT_MAX : Nat := 4294967295

/-- Output-enable mask `PQR(1, 0, 0)`: only the P leg enabled. -/
def PQR_1_0_0 : Nat := 1

/-- Conversion of an `unsigned` value to C `int` (gcc modular semantics),
used for the `(int)` casts in the search. -/
def i32ofNat (v : Nat) : Int :=
  if v % 2 ^ 32 < 2 ^ 31 then (v % 2 ^ 32 : Int) else (v % 2 ^ 32 : Int) - 2 ^ 32

/-- Conversion of a C `int` value to `uint32_t` storage. -/
def u32ofInt (x : Int) : Nat := (x.emod (2 ^ 32)).toNat

/-- Slice of `struct stm32mp1_pll_settings` written by the search for one
OPP entry: the six `cfg[idx][...]` cells and `frac[idx]`. -/
structure Pll1EntrySettings where
  cfgM : Nat
  cfgN : Nat
  cfgP : Nat
  cfgQ : Nat
  cfgR : Nat
  cfgO : Nat
  frac : Nat
deriving Repr, DecidableEq

/-- Local state of `clk_compute_pll1_settings`: the settings cells being
written and the running `best_diff` (initially `UINT_MAX`). -/
structure Pll1SearchSt where
  settings : Pll1EntrySettings
  best_diff : Nat
deriving Repr, DecidableEq

/-- The `freq = output_freq * (divm + 1) * (divp + 1)` computation
(64-bit unsigned arithmetic). -/
def pll1_freq (output_freq : Nat) (divm divp : Nat) : Nat :=
  output_freq * (divm + 1) % 2 ^ 64 * (divp + 1) % 2 ^ 64

/-- The `divn = (int)((freq / input_freq) - 1)` computation: 64-bit
unsigned subtraction then the cast to `int`. -/
def pll1_divn_of (input_freq freq : Nat) : Int :=
  i32ofNat ((freq / input_freq + (2 ^ 64 - 1)) % 2 ^ 64)

/-- The initial fractional value
`frac = (int)(((freq * FRAC_MAX) / input_freq) - ((divn + 1) * FRAC_MAX))`. -/
def pll1_frac0 (input_freq freq : Nat) (divn : Int) : Int :=
  i32ofNat ((freq * 8192 % 2 ^ 64 / input_freq +
    (2 ^ 64 - ((divn + 1) * 8192).toNat)) % 2 ^ 64)

/-- The `vco = (post_divm * (divn + 1)) + ((post_divm * (ull)frac) / FRAC_MAX)`
computation: the first product in 32-bit `unsigned long` arithmetic, the
second on the 64-bit conversion of the `int` fractional value. -/
def pll1_vco (post_divm : Nat) (divn : Int) (frac : Int) : Nat :=
  (post_divm * ((divn + 1).emod (2 ^ 32)).toNat % 2 ^ 32 +
    post_divm * (frac.emod (2 ^ 64)).toNat % 2 ^ 64 / 8192) % 2 ^ 64

/-- The `freq = vco / (divp + 1)` recomputation followed by
`diff = (unsigned int)|freq - output_freq|`. -/
def pll1_cand_diff (output_freq post_divm : Nat) (divp : Nat) (divn : Int)
    (frac : Int) : Nat :=
  let vco := pll1_vco post_divm divn frac
  let freq2 := vco / (divp + 1)
  (if output_freq < freq2 then freq2 - output_freq else output_freq - freq2) %
    2 ^ 32

/-- Recording of an improving candidate into the settings cells
(`cfg[idx][PLLCFG_M/N/P]` and `frac[idx]`). -/
def pll1_record (divm : Nat) (divn : Int) (divp : Nat) (frac : Int)
    (st : Pll1SearchSt) : Pll1SearchSt :=
  { st with settings := { st.settings with
      cfgM := divm, cfgN := u32ofInt divn, cfgP := divp,
      frac := u32ofInt frac } }

/-- Embedding of the 2-iteration fractional refinement loop
(`for (i = 2; i != 0; i--)`): `frac` beyond `FRAC_MAX` breaks, a VCO
outside the window advances `frac`, an improving error records the
candidate, and a zero error returns immediately (the `true` flag). -/
def pll1_frac_loop (output_freq post_divm : Nat) (divm divp : Nat)
    (divn : Int) : Nat → Int → Pll1SearchSt → Pll1SearchSt × Bool
  | 0, _, st => (st, false)
  | i + 1, frac, st =>
    if frac > FRAC_MAX then (st, false)
    else
      let vco := pll1_vco post_divm divn frac
      if vco < VCO_MIN / 2 ∨ vco > VCO_MAX / 2 then
        pll1_frac_loop output_freq post_divm divm divp divn i (frac + 1) st
      else
        let diff := pll1_cand_diff output_freq post_divm divp divn frac
        if diff < st.best_diff then
          let st' := pll1_record divm divn divp frac st
          if diff = 0 then (st', true)
          else
            pll1_frac_loop output_freq post_divm divm divp divn i (frac + 1)
              { st' with best_diff := diff }
        else
          pll1_frac_loop output_freq post_divm divm divp divn i (frac + 1) st

/-- Embedding of the inner `for (divp = DIVP_MIN; divp <= DIVP_MAX; divp++)`
loop over an explicit list of divp values. -/
def pll1_divp_loop (input_freq output_freq post_divm : Nat) (divm : Nat) :
    List Nat → Pll1SearchSt → Pll1SearchSt × Bool
  | [], st => (st, false)
  | divp :: rest, st =>
    let freq := pll1_freq output_freq divm divp
    let divn := pll1_divn_of input_freq freq
    if divn < DIVN_MIN ∨ divn > DIVN_MAX then
      pll1_divp_loop input_freq output_freq post_divm divm rest st
    else
      let r := pll1_frac_loop output_freq post_divm divm divp divn 2
        (pll1_frac0 input_freq freq divn) st
      if r.2 then r
      else pll1_divp_loop input_freq output_freq post_divm divm rest r.1

/-- Embedding of the outer `for (divm = DIVM_MAX; divm >= DIVM_MIN; divm--)`
loop over an explicit list of divm values. -/
def pll1_divm_loop (input_freq output_freq : Nat) :
    List Nat → Pll1SearchSt → Pll1SearchSt × Bool
  | [], st => (st, false)
  | divm :: rest, st =>
    let post_divm := input_freq / (divm + 1)
    if post_divm < POST_DIVM_MIN ∨ post_divm > POST_DIVM_MAX then
      pll1_divm_loop input_freq output_freq rest st
    else
      let r := pll1_divp_loop input_freq output_freq post_divm divm
        (List.range (DIVP_MAX + 1)) st
      if r.2 then r
      else pll1_divm_loop input_freq output_freq rest r.1

/-- Embedding of `clk_compute_pll1_settings` for one OPP entry:
`output_freq = pll1_settings.freq[idx] * 1000U` (32-bit product), the
Q/R/O cells are preset, the search runs M from 63 down to 0 and P from 0
to 127, and on a fruitless search the output-enable cell is zeroed and
-1 returned. -/
def clk_compute_pll1_settings (input_freq freq_khz : Nat)
    (s0 : Pll1EntrySettings) : Pll1EntrySettings × Int :=
  let output_freq := freq_khz * 1000 % 2 ^ 32
  let st0 : Pll1SearchSt :=
    { settings := { s0 with cfgQ := 0, cfgR := 0, cfgO := PQR_1_0_0 },
      best_diff := UINT_MAX }
  let r := pll1_divm_loop input_freq output_freq
    ((List.range (DIVM_MAX + 1)).reverse) st0
  if r.2 then (r.1.settings, 0)
  else if r.1.best_diff = UINT_MAX then ({ r.1.settings with cfgO := 0 }, -1)
  else (r.1.settings, 0)

/-! ## Spec-side description of the search (for claim C2)

The candidate space in the order the spec prescribes: M from 63 down to
0 (filtered by the 8-16 MHz post-M window), P from 0 to 127 (filtered by
the 24..99 range of the derived N), and the two fractional refinement
steps (filtered by the 400-800 MHz VCO window), each candidate carrying
the divider set and its absolute frequency error. -/

/-- One candidate divider set of the PLL1 search together with its
frequency error. -/
structure Pll1Cand where
  divm : Nat
  divp : Nat
  divn : Int
  frac : Int
  diff : Nat
deriving Repr, DecidableEq

/-- The candidate produced by fractional step `s` from base value `f`
(`none` when the step is filtered out). -/
def pll1_frac_cand (output_freq post_divm : Nat) (divm divp : Nat)
    (divn : Int) (f : Int) (s : Nat) : Option Pll1Cand :=
  let frac := f + (s : Int)
  if frac > FRAC_MAX then none
  else
    let vco := pll1_vco post_divm divn frac
    if vco < VCO_MIN / 2 ∨ vco > VCO_MAX / 2 then none
    else
      some ⟨divm, divp, divn, frac,
        pll1_cand_diff output_freq post_divm divp divn frac⟩

/-- The (at most two) fractional candidates of a given (M, P) pair, in
increasing fractional order. -/
def pll1_frac_cands (input_freq output_freq post_divm : Nat)
    (divm divp : Nat) (divn : Int) : List Pll1Cand :=
  (List.range 2).filterMap
    (pll1_frac_cand output_freq post_divm divm divp divn
      (pll1_frac0 input_freq (pll1_freq output_freq divm divp) divn))

/-- The candidates of a given (M, P) pair (empty when the derived N is
out of range). -/
def pll1_divp_cands (input_freq output_freq post_divm : Nat) (divm : Nat)
    (divp : Nat) : List Pll1Cand :=
  let freq := pll1_freq output_freq divm divp
  let divn := pll1_divn_of input_freq freq
  if divn < DIVN_MIN ∨ divn > DIVN_MAX then []
  else pll1_frac_cands input_freq output_freq post_divm divm divp divn

/-- The full candidate list in search order: M descending from 63 to 0,
P ascending from 0 to 127, fractional value ascending. -/
def pll1_cands (input_freq output_freq : Nat) : List Pll1Cand :=
  ((List.range (DIVM_MAX + 1)).reverse).flatMap fun divm =>
    let post_divm := input_freq / (divm + 1)
    if post_divm < POST_DIVM_MIN ∨ post_divm > POST_DIVM_MAX then []
    else
      (List.range (DIVP_MAX + 1)).flatMap
        (pll1_divp_cands input_freq output_freq post_divm divm)

/-- Abstract processing of one candidate: record if the error strictly
improves, stop on a zero error. -/
def pll1_cand_step (c : Pll1Cand) (st : Pll1SearchSt) : Pll1SearchSt × Bool :=
  if c.diff < st.best_diff then
    let st' := pll1_record c.divm c.divn c.divp c.frac st
    if c.diff = 0 then (st', true)
    else ({ st' with best_diff := c.diff }, false)
  else (st, false)

/-- Abstract processing of a candidate list in order, stopping at the
first zero-error candidate. -/
def pll1_run_cands : List Pll1Cand → Pll1SearchSt → Pll1SearchSt × Bool
  | [], st => (st, false)
  | c :: cs, st =>
    let r := pll1_cand_step c st
    if r.2 then r else pll1_run_cands cs r.1

/-- Minimum of the candidate errors and of the starting bound `b`. -/
def pll1_min_diff_from (b : Nat) (cs : List Pll1Cand) : Nat :=
  cs.foldr (fun c m => min c.diff m) b

theorem pll1_run_cands_append (xs ys : List Pll1Cand) (st : Pll1SearchSt) :
    pll1_run_cands (xs ++ ys) st =
      (if (pll1_run_cands xs st).2 then pll1_run_cands xs st
       else pll1_run_cands ys (pll1_run_cands xs st).1) := by
  induction xs generalizing st with
  | nil => rfl
  | cons c xs ih =>
    simp only [List.cons_append, pll1_run_cands]
    by_cases h : (pll1_cand_step c st).2
    · simp [h]
    · simp only [h, if_false, Bool.false_eq_true]
      exact ih (pll1_cand_step c st).1

theorem pll1_frac_cand_succ (output_freq post_divm : Nat) (divm divp : Nat)
    (divn : Int) (f : Int) (s : Nat) :
    pll1_frac_cand output_freq post_divm divm divp divn f (s + 1) =
      pll1_frac_cand output_freq post_divm divm divp divn (f + 1) s := by
  have h : f + ((s + 1 : Nat) : Int) = f + 1 + (s : Int) := by push_cast; ring
  simp only [pll1_frac_cand, h]

theorem pll1_frac_cand_none (output_freq post_divm : Nat) (divm divp : Nat)
    (divn : Int) (f : Int) (s : Nat) (hf : f > FRAC_MAX) :
    pll1_frac_cand output_freq post_divm divm divp divn f s = none := by
  have h : f + (s : Int) > FRAC_MAX := by
    have hs : (0 : Int) ≤ (s : Int) := Int.ofNat_nonneg s
    omega
  simp [pll1_frac_cand, h]

theorem pll1_frac_cand_zero (output_freq post_divm : Nat) (divm divp : Nat)
    (divn : Int) (f : Int) :
    pll1_frac_cand output_freq post_divm divm divp divn f 0 =
      (if f > FRAC_MAX then none
       else if pll1_vco post_divm divn f < VCO_MIN / 2 ∨
           pll1_vco post_divm divn f > VCO_MAX / 2 then none
       else some ⟨divm, divp, divn, f,
         pll1_cand_diff output_freq post_divm divp divn f⟩) := by
  simp [pll1_frac_cand]

theorem pll1_frac_loop_eq_run (output_freq post_divm : Nat) (divm divp : Nat)
    (divn : Int) :
    ∀ (i : Nat) (f : Int) (st : Pll1SearchSt),
      pll1_frac_loop output_freq post_divm divm divp divn i f st =
        pll1_run_cands
          ((List.range i).filterMap
            (pll1_frac_cand output_freq post_divm divm divp divn f)) st := by
  intro i
  induction i with
  | zero => intro f st; rfl
  | succ i ih =>
    intro f st
    have htail : (List.filterMap
        (pll1_frac_cand output_freq post_divm divm divp divn f)
        (List.map Nat.succ (List.range i))) =
        (List.range i).filterMap
          (pll1_frac_cand output_freq post_divm divm divp divn (f + 1)) := by
      rw [List.filterMap_map]
      congr 1
      funext s
      exact pll1_frac_cand_succ output_freq post_divm divm divp divn f s
    rw [List.range_succ_eq_map, List.filterMap_cons, pll1_frac_cand_zero, htail]
    by_cases hf : f > FRAC_MAX
    · rw [if_pos hf]
      have hnil : (List.range i).filterMap
          (pll1_frac_cand output_freq post_divm divm divp divn (f + 1)) = [] := by
        rw [List.filterMap_eq_nil_iff]
        intro s _
        exact pll1_frac_cand_none output_freq post_divm divm divp divn (f + 1) s
          (by omega)
      rw [hnil]
      simp only [pll1_frac_loop]
      rw [if_pos hf]
      rfl
    · rw [if_neg hf]
      by_cases hv : pll1_vco post_divm divn f < VCO_MIN / 2 ∨
          pll1_vco post_divm divn f > VCO_MAX / 2
      · rw [if_pos hv]
        simp only [pll1_frac_loop]
        rw [if_neg hf, if_pos hv]
        exact ih (f + 1) st
      · rw [if_neg hv]
        simp only [pll1_frac_loop, pll1_run_cands, pll1_cand_step]
        rw [if_neg hf, if_neg hv]
        by_cases hd : pll1_cand_diff output_freq post_divm divp divn f <
            st.best_diff
        · rw [if_pos hd, if_pos hd]
          by_cases hz : pll1_cand_diff output_freq post_divm divp divn f = 0
          · rw [if_pos hz, if_pos hz]
            simp
          · rw [if_neg hz, if_neg hz]
            simp only [Bool.false_eq_true, if_false]
            exact ih (f + 1) _
        · rw [if_neg hd, if_neg hd]
          exact ih (f + 1) st


theorem pll1_divp_loop_eq_run (input_freq output_freq post_divm : Nat)
    (divm : Nat) :
    ∀ (l : List Nat) (st : Pll1SearchSt),
      pll1_divp_loop input_freq output_freq post_divm divm l st =
        pll1_run_cands
          (l.flatMap (pll1_divp_cands input_freq output_freq post_divm divm))
          st := by
  intro l
  induction l with
  | nil => intro st; rfl
  | cons divp rest ih =>
    intro st
    rw [List.flatMap_cons, pll1_run_cands_append]
    simp only [pll1_divp_loop, pll1_divp_cands]
    by_cases hn : pll1_divn_of input_freq (pll1_freq output_freq divm divp) <
        DIVN_MIN ∨
        pll1_divn_of input_freq (pll1_freq output_freq divm divp) > DIVN_MAX
    · rw [if_pos hn, if_pos hn]
      simp only [pll1_run_cands, Bool.false_eq_true, if_false]
      exact ih st
    · rw [if_neg hn, if_neg hn]
      rw [pll1_frac_loop_eq_run, pll1_frac_cands]
      rw [ih]

theorem pll1_divm_loop_eq_run (input_freq output_freq : Nat) :
    ∀ (l : List Nat) (st : Pll1SearchSt),
      pll1_divm_loop input_freq output_freq l st =
        pll1_run_cands
          (l.flatMap fun divm =>
            let post_divm := input_freq / (divm + 1)
            if post_divm < POST_DIVM_MIN ∨ post_divm > POST_DIVM_MAX then []
            else
              (List.range (DIVP_MAX + 1)).flatMap
                (pll1_divp_cands input_freq output_freq post_divm divm)) st := by
  intro l
  induction l with
  | nil => intro st; rfl
  | cons divm rest ih =>
    intro st
    rw [List.flatMap_cons, pll1_run_cands_append]
    simp only [pll1_divm_loop]
    by_cases hp : input_freq / (divm + 1) < POST_DIVM_MIN ∨
        input_freq / (divm + 1) > POST_DIVM_MAX
    · rw [if_pos hp, if_pos hp]
      simp only [pll1_run_cands, Bool.false_eq_true, if_false]
      exact ih st
    · rw [if_neg hp, if_neg hp]
      rw [pll1_divp_loop_eq_run]
      rw [ih]

/-- The search body is exactly the ordered candidate processing. -/
theorem pll1_search_eq_run (input_freq output_freq : Nat) (st : Pll1SearchSt) :
    pll1_divm_loop input_freq output_freq
        ((List.range (DIVM_MAX + 1)).reverse) st =
      pll1_run_cands (pll1_cands input_freq output_freq) st := by
  rw [pll1_divm_loop_eq_run, pll1_cands]

theorem pll1_min_diff_from_cons (b : Nat) (c : Pll1Cand)
    (cs : List Pll1Cand) :
    pll1_min_diff_from b (c :: cs) = min c.diff (pll1_min_diff_from b cs) :=
  rfl

theorem pll1_min_diff_from_le_init (b : Nat) (cs : List Pll1Cand) :
    pll1_min_diff_from b cs ≤ b := by
  induction cs with
  | nil => exact Nat.le_refl b
  | cons c cs ih =>
    rw [pll1_min_diff_from_cons]
    exact le_trans (Nat.min_le_right _ _) ih

theorem pll1_min_diff_from_le_mem (b : Nat) (cs : List Pll1Cand)
    (c : Pll1Cand) (hc : c ∈ cs) : pll1_min_diff_from b cs ≤ c.diff := by
  induction cs with
  | nil => cases hc
  | cons d cs ih =>
    rw [pll1_min_diff_from_cons]
    rcases List.mem_cons.mp hc with rfl | h
    · exact Nat.min_le_left _ _
    · exact le_trans (Nat.min_le_right _ _) (ih h)

theorem pll1_min_diff_from_ge (b x : Nat) (cs : List Pll1Cand)
    (hb : x ≤ b) (h : ∀ c ∈ cs, x ≤ c.diff) :
    x ≤ pll1_min_diff_from b cs := by
  induction cs with
  | nil => exact hb
  | cons c cs ih =>
    rw [pll1_min_diff_from_cons]
    exact le_min (h c (List.mem_cons_self _ _))
      (ih fun d hd => h d (List.mem_cons_of_mem _ hd))

theorem pll1_min_diff_from_comm (b b' : Nat) (cs : List Pll1Cand) :
    min b' (pll1_min_diff_from b cs) = min b (pll1_min_diff_from b' cs) := by
  induction cs with
  | nil => exact Nat.min_comm b' b
  | cons c cs ih =>
    rw [pll1_min_diff_from_cons, pll1_min_diff_from_cons,
      Nat.min_left_comm, ih, Nat.min_left_comm]

theorem pll1_min_diff_from_attained (b : Nat) (cs : List Pll1Cand) :
    pll1_min_diff_from b cs = b ∨
      ∃ c ∈ cs, pll1_min_diff_from b cs = c.diff := by
  induction cs with
  | nil => exact Or.inl rfl
  | cons c cs ih =>
    rw [pll1_min_diff_from_cons]
    rcases Nat.le_total c.diff (pll1_min_diff_from b cs) with h | h
    · exact Or.inr ⟨c, List.mem_cons_self _ _, Nat.min_eq_left h⟩
    · rw [Nat.min_eq_right h]
      rcases ih with h2 | ⟨d, hd, h2⟩
      · exact Or.inl h2
      · exact Or.inr ⟨d, List.mem_cons_of_mem _ hd, h2⟩

theorem pll1_find_congr {p q : Pll1Cand → Bool} (l : List Pll1Cand)
    (h : ∀ a ∈ l, p a = q a) : l.find? p = l.find? q := by
  induction l with
  | nil => rfl
  | cons a l ih =>
    simp only [List.find?]
    rw [h a (List.mem_cons_self _ _)]
    cases hq : q a with
    | false => exact ih fun d hd => h d (List.mem_cons_of_mem _ hd)
    | true => rfl

theorem pll1_run_cands_none (cs : List Pll1Cand) (st : Pll1SearchSt)
    (h : ∀ c ∈ cs, st.best_diff ≤ c.diff) :
    pll1_run_cands cs st = (st, false) := by
  induction cs generalizing st with
  | nil => rfl
  | cons c cs ih =>
    have hc := h c (List.mem_cons_self _ _)
    simp only [pll1_run_cands, pll1_cand_step]
    rw [if_neg (Nat.not_lt.mpr hc)]
    simpa using ih st fun d hd => h d (List.mem_cons_of_mem _ hd)

/-- Selection predicate: a candidate whose error beats the running bound
`b` and attains the minimum `m` of the remaining candidate list. -/
def pll1_sel_pred (b m : Nat) (d : Pll1Cand) : Bool :=
  decide (d.diff < b) && decide (d.diff ≤ m)

theorem pll1_run_cands_sel (cs : List Pll1Cand) :
    ∀ (st : Pll1SearchSt) (c : Pll1Cand),
      cs.find? (pll1_sel_pred st.best_diff
        (pll1_min_diff_from st.best_diff cs)) = some c →
      (pll1_run_cands cs st).1.settings =
        { st.settings with
            cfgM := c.divm, cfgN := u32ofInt c.divn, cfgP := c.divp,
            frac := u32ofInt c.frac } ∧
      (pll1_run_cands cs st).2 = decide (c.diff = 0) ∧
      (c.diff ≠ 0 → (pll1_run_cands cs st).1.best_diff = c.diff) := by
  induction cs with
  | nil =>
    intro st c h
    cases h
  | cons c0 cs ih =>
    intro st c hfind
    by_cases hc0 : c0.diff < st.best_diff
    · by_cases hz : c0.diff = 0
      · have hpred : pll1_sel_pred st.best_diff
            (pll1_min_diff_from st.best_diff (c0 :: cs)) c0 = true := by
          simp only [pll1_sel_pred, Bool.and_eq_true, decide_eq_true_eq]
          exact ⟨hc0, by rw [hz]; exact Nat.zero_le _⟩
        rw [List.find?_cons_of_pos _ hpred] at hfind
        obtain rfl : c0 = c := Option.some.inj hfind
        have hstep : pll1_cand_step c0 st =
            (pll1_record c0.divm c0.divn c0.divp c0.frac st, true) := by
          simp [pll1_cand_step, hc0, hz]
          omega
        have hrun : pll1_run_cands (c0 :: cs) st =
            (pll1_record c0.divm c0.divn c0.divp c0.frac st, true) := by
          simp only [pll1_run_cands, hstep]
          simp
        rw [hrun]
        exact ⟨rfl, by simp [hz], fun h => absurd hz h⟩
      · have hrun : pll1_run_cands (c0 :: cs) st =
            pll1_run_cands cs
              { pll1_record c0.divm c0.divn c0.divp c0.frac st with
                  best_diff := c0.diff } := by
          simp only [pll1_run_cands, pll1_cand_step]
          rw [if_pos hc0, if_neg hz]
          rfl
        by_cases himp : ∃ d ∈ cs, d.diff < c0.diff
        · obtain ⟨d, hd, hdlt⟩ := himp
          have hmble := pll1_min_diff_from_le_mem st.best_diff cs d hd
          have hmb_lt : pll1_min_diff_from st.best_diff cs < c0.diff :=
            lt_of_le_of_lt hmble hdlt
          have hm : pll1_min_diff_from st.best_diff (c0 :: cs) =
              pll1_min_diff_from st.best_diff cs := by
            rw [pll1_min_diff_from_cons]
            exact Nat.min_eq_right (le_of_lt hmb_lt)
          have hmc_le : pll1_min_diff_from c0.diff cs ≤ d.diff :=
            pll1_min_diff_from_le_mem _ cs d hd
          have hmc_lt_b : pll1_min_diff_from c0.diff cs < st.best_diff :=
            lt_trans (lt_of_le_of_lt hmc_le hdlt) hc0
          have hmc : pll1_min_diff_from c0.diff cs =
              pll1_min_diff_from st.best_diff cs := by
            have hcomm := pll1_min_diff_from_comm st.best_diff c0.diff cs
            calc pll1_min_diff_from c0.diff cs
                = min st.best_diff (pll1_min_diff_from c0.diff cs) :=
                  (Nat.min_eq_right (le_of_lt hmc_lt_b)).symm
              _ = min c0.diff (pll1_min_diff_from st.best_diff cs) := hcomm.symm
              _ = pll1_min_diff_from st.best_diff cs :=
                  Nat.min_eq_right (le_of_lt hmb_lt)
          have hpred : ¬ (pll1_sel_pred st.best_diff
              (pll1_min_diff_from st.best_diff (c0 :: cs)) c0 = true) := by
            rw [hm]
            simp only [pll1_sel_pred, Bool.and_eq_true, decide_eq_true_eq,
              not_and]
            intro _
            omega
          rw [List.find?_cons_of_neg _ hpred, hm] at hfind
          have hfind2 : cs.find? (pll1_sel_pred
              ({ pll1_record c0.divm c0.divn c0.divp c0.frac st with
                  best_diff := c0.diff } : Pll1SearchSt).best_diff
              (pll1_min_diff_from
                ({ pll1_record c0.divm c0.divn c0.divp c0.frac st with
                    best_diff := c0.diff } : Pll1SearchSt).best_diff cs)) =
              some c := by
            rw [← hfind]
            apply pll1_find_congr
            intro a _
            show pll1_sel_pred c0.diff (pll1_min_diff_from c0.diff cs) a =
              pll1_sel_pred st.best_diff (pll1_min_diff_from st.best_diff cs) a
            rw [pll1_sel_pred, pll1_sel_pred, hmc]
            by_cases hle : a.diff ≤ pll1_min_diff_from st.best_diff cs
            · have h1 : a.diff < c0.diff := lt_of_le_of_lt hle hmb_lt
              have h2 : a.diff < st.best_diff := lt_trans h1 hc0
              simp [h1, h2, hle]
            · simp [hle]
          obtain ⟨hs, hf2, hbd⟩ := ih _ c hfind2
          rw [hrun]
          exact ⟨hs, hf2, hbd⟩
        · push_neg at himp
          have hge : c0.diff ≤ pll1_min_diff_from st.best_diff cs :=
            pll1_min_diff_from_ge _ _ cs (le_of_lt hc0) himp
          have hm : pll1_min_diff_from st.best_diff (c0 :: cs) = c0.diff := by
            rw [pll1_min_diff_from_cons]
            exact Nat.min_eq_left hge
          have hpred : pll1_sel_pred st.best_diff
              (pll1_min_diff_from st.best_diff (c0 :: cs)) c0 = true := by
            rw [hm]
            simp [pll1_sel_pred, hc0]
          rw [List.find?_cons_of_pos _ hpred] at hfind
          obtain rfl : c0 = c := Option.some.inj hfind
          have hnone : pll1_run_cands cs
              { pll1_record c0.divm c0.divn c0.divp c0.frac st with
                  best_diff := c0.diff } =
              ({ pll1_record c0.divm c0.divn c0.divp c0.frac st with
                  best_diff := c0.diff }, false) :=
            pll1_run_cands_none cs _ himp
          rw [hrun, hnone]
          exact ⟨rfl, by simp [hz], fun _ => rfl⟩
    · have hmb_le_b := pll1_min_diff_from_le_init st.best_diff cs
      have hm : pll1_min_diff_from st.best_diff (c0 :: cs) =
          pll1_min_diff_from st.best_diff cs := by
        rw [pll1_min_diff_from_cons]
        exact Nat.min_eq_right (le_trans hmb_le_b (Nat.not_lt.mp hc0))
      have hpred : ¬ (pll1_sel_pred st.best_diff
          (pll1_min_diff_from st.best_diff (c0 :: cs)) c0 = true) := by
        simp only [pll1_sel_pred, Bool.and_eq_true, decide_eq_true_eq, not_and]
        intro h
        exact absurd h hc0
      rw [List.find?_cons_of_neg _ hpred, hm] at hfind
      have hrun : pll1_run_cands (c0 :: cs) st = pll1_run_cands cs st := by
        simp only [pll1_run_cands, pll1_cand_step]
        rw [if_neg hc0]
        simp
      rw [hrun]
      exact ih st c hfind

/-- C2: the PLL1 settings search enumerates M from 63 down to 0 (keeping
only M with `input_freq/(M+1)` in the 8-16 MHz window), P from 0 to 127
(keeping the derived N only in 24..99), and two ascending fractional
refinement steps (keeping only VCO values in [400 MHz, 800 MHz]); a
candidate is recorded only on strict improvement of the absolute error,
a zero error stops the search, ties go to the earliest candidate in that
order (the `find?` of the minimum below), and if no candidate exists the
entry is invalidated by zeroing the output-enable cell and -1 is
returned. -/
theorem clk_compute_pll1_settings_spec (input_freq freq_khz : Nat)
    (s0 : Pll1EntrySettings) :
    (pll1_min_diff_from UINT_MAX
        (pll1_cands input_freq (freq_khz * 1000 % 2 ^ 32)) = UINT_MAX →
      clk_compute_pll1_settings input_freq freq_khz s0 =
        ({ s0 with cfgQ := 0, cfgR := 0, cfgO := 0 }, -1)) ∧
    (pll1_min_diff_from UINT_MAX
        (pll1_cands input_freq (freq_khz * 1000 % 2 ^ 32)) < UINT_MAX →
      ∃ c, (pll1_cands input_freq (freq_khz * 1000 % 2 ^ 32)).find?
          (pll1_sel_pred UINT_MAX
            (pll1_min_diff_from UINT_MAX
              (pll1_cands input_freq (freq_khz * 1000 % 2 ^ 32)))) = some c ∧
        clk_compute_pll1_settings input_freq freq_khz s0 =
          ({ cfgM := c.divm, cfgN := u32ofInt c.divn, cfgP := c.divp,
             cfgQ := 0, cfgR := 0, cfgO := PQR_1_0_0,
             frac := u32ofInt c.frac }, 0)) := by
  constructor
  · intro hmax
    have hall : ∀ c ∈ pll1_cands input_freq (freq_khz * 1000 % 2 ^ 32),
        UINT_MAX ≤ c.diff := by
      intro c hc
      have h := pll1_min_diff_from_le_mem UINT_MAX
        (pll1_cands input_freq (freq_khz * 1000 % 2 ^ 32)) c hc
      omega
    simp only [clk_compute_pll1_settings]
    rw [pll1_search_eq_run]
    rw [pll1_run_cands_none _ _ hall]
    simp
  · intro hlt
    rcases pll1_min_diff_from_attained UINT_MAX
        (pll1_cands input_freq (freq_khz * 1000 % 2 ^ 32)) with
      heq | ⟨cstar, hmem, hattain⟩
    · omega
    · have hpred : pll1_sel_pred UINT_MAX
          (pll1_min_diff_from UINT_MAX
            (pll1_cands input_freq (freq_khz * 1000 % 2 ^ 32))) cstar = true := by
        simp only [pll1_sel_pred, Bool.and_eq_true, decide_eq_true_eq]
        omega
      have hsome : ((pll1_cands input_freq (freq_khz * 1000 % 2 ^ 32)).find?
          (pll1_sel_pred UINT_MAX
            (pll1_min_diff_from UINT_MAX
              (pll1_cands input_freq (freq_khz * 1000 % 2 ^ 32))))).isSome := by
        rw [List.find?_isSome]
        exact ⟨cstar, hmem, hpred⟩
      obtain ⟨c, hc⟩ := Option.isSome_iff_exists.mp hsome
      refine ⟨c, hc, ?_⟩
      have hcp := List.find?_some hc
      simp only [pll1_sel_pred, Bool.and_eq_true, decide_eq_true_eq] at hcp
      obtain ⟨hclt, hcle⟩ := hcp
      obtain ⟨hs, hf2, hbd⟩ := pll1_run_cands_sel
        (pll1_cands input_freq (freq_khz * 1000 % 2 ^ 32))
        { settings := { s0 with cfgQ := 0, cfgR := 0, cfgO := PQR_1_0_0 },
          best_diff := UINT_MAX } c hc
      simp only [clk_compute_pll1_settings]
      rw [pll1_search_eq_run]
      by_cases hflag : (pll1_run_cands
          (pll1_cands input_freq (freq_khz * 1000 % 2 ^ 32))
          { settings := { s0 with cfgQ := 0, cfgR := 0, cfgO := PQR_1_0_0 },
            best_diff := UINT_MAX }).2 = true
      · rw [if_pos hflag, hs]
      · rw [if_neg hflag]
        have hz : c.diff ≠ 0 := by
          intro h0
          apply hflag
          rw [hf2, h0]
          rfl
        have hbd2 := hbd hz
        have hne : ¬ ((pll1_run_cands
            (pll1_cands input_freq (freq_khz * 1000 % 2 ^ 32))
            { settings := { s0 with cfgQ := 0, cfgR := 0, cfgO := PQR_1_0_0 },
              best_diff := UINT_MAX }).1.best_diff = UINT_MAX) := by
          rw [hbd2]
          omega
        rw [if_neg hne, hs]

/-- Witness for C2: with a zero reference frequency no divider passes the
post-M window, so the whole candidate space is empty and the entry is
marked invalid (output-enable cell zeroed, previous M/N/P/frac cells left
in place, -1 returned). -/
theorem clk_compute_pll1_settings_spec_witness :
    pll1_min_diff_from UINT_MAX (pll1_cands 0 (650000 * 1000 % 2 ^ 32)) =
      UINT_MAX ∧
    clk_compute_pll1_settings 0 650000 ⟨1, 2, 3, 4, 5, 6, 7⟩ =
      ({ cfgM := 1, cfgN := 2, cfgP := 3, cfgQ := 0, cfgR := 0, cfgO := 0,
         frac := 7 }, -1) :=
  ⟨by decide,
   (clk_compute_pll1_settings_spec 0 650000 ⟨1, 2, 3, 4, 5, 6, 7⟩).1
     (by decide)⟩
